import Mathlib

/-!
Shallow embedding of the job orchestration and streaming core of the
3D-Print-Converter firmware (firmware/src/main.cpp), together with proofs
of the testable properties stated in its specification.

Strings from the firmware are modelled as `List Char`; the SD card, the
HTTP transport and the printer link are modelled as explicit parameters
(file contents, response status, response bodies), so every definition
below is an executable function translated from the corresponding C++
function of the source file.
-/

set_option autoImplicit false

/-- SystemState enum of the firmware (main.cpp lines 111-120). -/
inductive SystemState where
  | STATE_INIT
  | STATE_WIFI_CONNECTING
  | STATE_WIFI_AP_MODE
  | STATE_IDLE
  | STATE_UPLOADING
  | STATE_CONVERTING
  | STATE_PRINTING
  | STATE_ERROR
deriving DecidableEq, Repr

/-- SystemStatus struct (main.cpp lines 122-130); the IP address field is
omitted because no claim mentions it.  `print_progress` is a C `int`, hence
modelled as `Int`. -/
structure SysStatus where
  state : SystemState
  current_file : List Char
  print_progress : Int
  error_message : List Char
  sd_card_present : Bool
  printer_connected : Bool
deriving DecidableEq, Repr

/-- A concrete idle status used by concrete-input theorems. -/
def st0 : SysStatus :=
  ⟨SystemState.STATE_IDLE, [], 0, [], true, true⟩

/-- Whitespace as recognised by the Arduino String trim routine
(isspace: space, \t, \n, \v, \f, \r). -/
def isWS (c : Char) : Bool :=
  c = ' ' || c = '\t' || c = '\n' || c = '\x0b' || c = '\x0c' || c = '\r'

/-- Model of Arduino String::trim (used at main.cpp line 344): remove
leading and trailing whitespace. -/
def trimL (l : List Char) : List Char :=
  ((l.dropWhile isWS).reverse.dropWhile isWS).reverse

/-- The skip test of the streaming loop (main.cpp line 347): a record is
skipped when, after trimming, it is empty or starts with the comment
marker ";". -/
def skipRec (t : List Char) : Bool :=
  t.isEmpty || t.head? == some ';'

/-- Model of String::indexOf applied with the acknowledgment token "ok"
(main.cpp lines 317 and 356): true iff "ok" occurs as a contiguous
substring. -/
def hasOk : List Char → Bool
  | [] => false
  | c :: rest => (c = 'o' && rest.head? == some 'k') || hasOk rest

/-- Splitting of a byte stream into the records produced by repeated
readStringUntil of a line break while data is available (main.cpp lines
342-343): the terminator is consumed and not part of the record; a file
ending without a terminator yields a final record; an empty file yields
no record at all. -/
def records : List Char → List (List Char)
  | [] => []
  | c :: rest =>
    if c = '\n' then [] :: records rest
    else
      match records rest with
      | [] => [[c]]
      | l :: ls => (c :: l) :: ls

/-- Reinterpretation of a machine word as a signed 32-bit value: the value
of a C `long` on the 32-bit target after the wrap of an arithmetic result. -/
def toSigned32 (n : Nat) : Int :=
  if n % 4294967296 < 2147483648 then ((n % 4294967296 : Nat) : Int)
  else ((n % 4294967296 : Nat) : Int) - 4294967296

/-- The progress computation of main.cpp line 362,
`(bytes_sent * 100) / file_size`, performed in 32-bit `long` arithmetic:
the product wraps at 2^32 and the division truncates toward zero. -/
def progressCalc (bytes_sent file_size : Nat) : Int :=
  Int.tdiv (toSigned32 (bytes_sent * 100)) (toSigned32 file_size)

/-- Output of the streaming loop: the transmitted records, the logged
per-line protocol errors, and the (bytes_sent, print_progress) pair after
each record of the file. -/
structure StreamOut where
  transactions : List (List Char)
  errors : List (List Char)
  trace : List (Nat × Int)
deriving DecidableEq, Repr

/-- The per-record loop of printer_stream_file (main.cpp lines 342-370)
over the record sequence of the file.  `b` is bytes_sent, `p` the current
print_progress, `rs` the oracle of response strings accumulated by
printer_wait_response, one consumed per transmitted record (a missing
entry stands for silence until the timeout, i.e. the empty response). -/
def streamRecs (file_size : Nat) : Nat → Int → List (List Char) → List (List Char) → StreamOut
  | _, _, _, [] => ⟨[], [], []⟩
  | b, p, rs, l :: ls =>
    let t := trimL l
    if skipRec t then
      let out := streamRecs file_size b p rs ls
      ⟨out.transactions, out.errors, (b, p) :: out.trace⟩
    else
      let b1 := b + t.length
      let p1 := progressCalc b1 file_size
      let r := rs.headD []
      let out := streamRecs file_size b1 p1 rs.tail ls
      ⟨t :: out.transactions,
       (if hasOk r then out.errors else r :: out.errors),
       (b1, p1) :: out.trace⟩

/-- printer_stream_file (main.cpp lines 327-377).  `openOk` tells whether
SD.open succeeded, `content` is the byte content of the instruction file,
`responses` the oracle of printer responses.  Returns the C return value,
the resulting status, and the stream log. -/
def printer_stream_file (openOk : Bool) (responses : List (List Char))
    (filepath content : List Char) (st : SysStatus) :
    Bool × SysStatus × StreamOut :=
  if openOk then
    let st1 := { st with state := SystemState.STATE_PRINTING,
                         current_file := filepath, print_progress := 0 }
    let out := streamRecs content.length 0 0 responses (records content)
    (true, { st1 with state := SystemState.STATE_IDLE, print_progress := 100 }, out)
  else
    (false, { st with error_message := "Failed to open: ".toList ++ filepath,
                      state := SystemState.STATE_ERROR }, ⟨[], [], []⟩)

/-- The records of a file that the loop actually transmits, in file
order: each record trimmed, comment and blank records dropped. -/
def sentRecords (content : List Char) : List (List Char) :=
  ((records content).map trimL).filter (fun t => !skipRec t)

/-- Model of String::lastIndexOf (position of the last occurrence of a
character, none when absent). -/
def lastIdx (c : Char) : List Char → Option Nat
  | [] => none
  | x :: rest =>
    match lastIdx c rest with
    | some i => some (i + 1)
    | none => if x = c then some 0 else none

/-- The extension computation of handle_print, handle_convert and
convert_file_local: `s.substring(s.lastIndexOf('.'))`, i.e. the suffix
from the last dot (dot included), or the empty string when the name has
no dot (a negative index makes substring return the empty string). -/
def extOf (s : List Char) : List Char :=
  match lastIdx '.' s with
  | some i => s.drop i
  | none => []

/-- Model of `s.substring(s.lastIndexOf('/') + 1)`: the part after the
last slash, or the whole string when there is no slash. -/
def afterLastSlash (s : List Char) : List Char :=
  match lastIdx '/' s with
  | some i => s.drop (i + 1)
  | none => s

/-- Model of `s.substring(0, s.lastIndexOf('.'))`: the part before the
last dot, or the whole string when there is no dot. -/
def stripExt (s : List Char) : List Char :=
  match lastIdx '.' s with
  | some i => s.take i
  | none => s

/-- Result of the print request handler: HTTP status code, the success
flag of the JSON answer, whether a streaming task was spawned, and the
status as left by the handler itself. -/
structure PrintOut where
  http_code : Nat
  success : Bool
  stream_started : Bool
  st : SysStatus
deriving DecidableEq, Repr

/-- handle_print (main.cpp lines 1038-1073).  `body` is the file path
taken from the request body (none when the request has no body).  The
handler rejects a non G-code extension with 400 and otherwise spawns the
streaming task and answers success; it never inspects the current state. -/
def handle_print (body : Option (List Char)) (st : SysStatus) : PrintOut :=
  match body with
  | none => ⟨400, false, false, st⟩
  | some file =>
    let ext := (extOf file).map Char.toLower
    if ext = ".gcode".toList ∨ ext = ".gco".toList then ⟨200, true, true, st⟩
    else ⟨400, false, false, st⟩

/-- convert_file_local (main.cpp lines 383-416).  `input` is the content
of the source file when SD.open succeeds, `output_creatable` whether the
output file can be created.  Returns the C return value and the created
output file (path and bytes), if any. -/
def convert_file_local (input_path output_path : List Char)
    (input : Option (List Char)) (output_creatable : Bool) :
    Bool × Option (List Char × List Char) :=
  match input with
  | none => (false, none)
  | some bytes =>
    let ext := (extOf input_path).map Char.toLower
    if ext = ".gcode".toList ∨ ext = ".gco".toList then
      if output_creatable then (true, some (output_path, bytes)) else (false, none)
    else (false, none)

/-- Result of the remote conversion path: C return value, resulting
status, the created Instructions-collection file if any, and whether the
HTTP request to the conversion endpoint was performed. -/
structure ConvServerOut where
  ok : Bool
  st : SysStatus
  created : Option (List Char × List Char)
  network_called : Bool
deriving DecidableEq, Repr

/-- convert_file_server (main.cpp lines 418-482).  `input` is the content
of the source file when SD.open succeeds, `httpCode` the response status
of the endpoint, `respBody` its body, `output_creatable` whether the
output file can be created. -/
def convert_file_server (server_url input_path : List Char)
    (input : Option (List Char)) (httpCode : Nat) (respBody : List Char)
    (output_creatable : Bool) (st : SysStatus) : ConvServerOut :=
  if server_url = [] then
    ⟨false, { st with error_message := "No server configured".toList }, none, false⟩
  else
    let st1 := { st with state := SystemState.STATE_CONVERTING, current_file := input_path }
    match input with
    | none =>
      ⟨false, { st1 with error_message := "Failed to open file".toList,
                         state := SystemState.STATE_ERROR }, none, false⟩
    | some _ =>
      if httpCode = 200 then
        let output_path := "/gcode/".toList
          ++ stripExt (afterLastSlash input_path) ++ ".gcode".toList
        if output_creatable then
          ⟨true, { st1 with state := SystemState.STATE_IDLE },
           some (output_path, respBody), true⟩
        else
          ⟨false, { st1 with error_message := "Failed to create output".toList,
                             state := SystemState.STATE_ERROR }, none, true⟩
      else
        ⟨false, { st1 with error_message :=
                    "Server error: ".toList ++ Nat.toDigits 10 httpCode,
                           state := SystemState.STATE_ERROR }, none, true⟩

/-- Result of the convert request handler. -/
structure ConvOut where
  http_code : Nat
  success : Bool
  st : SysStatus
  created : Option (List Char × List Char)
  network_called : Bool
deriving DecidableEq, Repr

/-- handle_convert (main.cpp lines 1007-1036): when a companion server
URL is configured the request always goes through convert_file_server;
only otherwise is the local copy path used. -/
def handle_convert (body : Option (List Char)) (server_url : List Char)
    (input : Option (List Char)) (httpCode : Nat) (respBody : List Char)
    (output_creatable : Bool) (st : SysStatus) : ConvOut :=
  match body with
  | none => ⟨400, false, st, none, false⟩
  | some file =>
    if server_url ≠ [] then
      let r := convert_file_server server_url file input httpCode respBody output_creatable st
      if r.ok then ⟨200, true, r.st, r.created, r.network_called⟩
      else ⟨500, false, r.st, r.created, r.network_called⟩
    else
      let output0 := "/gcode/".toList ++ afterLastSlash file
      let output := stripExt output0 ++ ".gcode".toList
      let r := convert_file_local file output input output_creatable
      if r.1 then ⟨200, true, st, r.2, false⟩
      else ⟨500, false, st, r.2, false⟩

/-- handle_upload, UPLOAD_FILE_START branch (main.cpp lines 984-989):
SD.open fails when no card is present; the state becomes UPLOADING either
way.  Returns the upload file handle (the opened path) and the status. -/
def handle_upload_start (sd_present : Bool) (filename : List Char)
    (st : SysStatus) : Option (List Char) × SysStatus :=
  (if sd_present then some ("/uploads/".toList ++ filename) else none,
   { st with state := SystemState.STATE_UPLOADING, current_file := filename })

/-- handle_upload, UPLOAD_FILE_WRITE branch (main.cpp lines 990-993): a
chunk is appended only when the file handle is valid. -/
def handle_upload_write (handle : Option (List Char))
    (stored chunk : List Char) : List Char :=
  match handle with
  | some _ => stored ++ chunk
  | none => stored

/-- handle_upload, UPLOAD_FILE_END branch (main.cpp lines 994-999): the
state becomes IDLE unconditionally. -/
def handle_upload_end (st : SysStatus) : SysStatus :=
  { st with state := SystemState.STATE_IDLE }

/-- A whole upload request: the three callback phases followed by
handle_upload_complete (main.cpp lines 1003-1005), which always answers
200 with success true.  Returns the final status, the stored file (path
and bytes) if any, the HTTP code and the success flag. -/
def upload_request (sd_present : Bool) (filename : List Char)
    (chunks : List (List Char)) (st : SysStatus) :
    SysStatus × Option (List Char × List Char) × Nat × Bool :=
  let hs := handle_upload_start sd_present filename st
  let data := chunks.foldl (fun acc c => handle_upload_write hs.1 acc c) []
  let st2 := handle_upload_end hs.2
  let saved := match hs.1 with
    | some p => some (p, data)
    | none => none
  (st2, saved, 200, true)

/-- Config struct (main.cpp lines 98-105) with its field defaults. -/
structure Config where
  wifi_ssid : List Char
  wifi_pass : List Char
  device_name : List Char
  server_url : List Char
  printer_baud : Nat
  auto_start_print : Bool
deriving DecidableEq, Repr

/-- The power-on value of the Config struct. -/
def defaultConfig : Config :=
  ⟨[], [], "3DConverter".toList, [], 115200, false⟩

/-- The durable key/value area (Preferences namespace "3dprint"); a
missing key reads back as the empty string. -/
structure Prefs where
  wifi_ssid : List Char
  wifi_pass : List Char
  server_url : List Char
  device_name : List Char
deriving DecidableEq, Repr

/-- The JSON document handled by handle_settings and by the SD fallback
of load_config: each key may be absent. -/
structure SettingsDoc where
  server_url : Option (List Char)
  wifi_ssid : Option (List Char)
  wifi_pass : Option (List Char)
  device_name : Option (List Char)
deriving DecidableEq, Repr

/-- Model of strncpy into a fixed buffer of n bytes; faithful for sources
shorter than the buffer (which stay intact) and truncating otherwise. -/
def strncpyM (n : Nat) (src : List Char) : List Char :=
  src.take n

/-- handle_settings, POST branch (main.cpp lines 1084-1106): the posted
keys are copied into the in-RAM config, and the whole posted document is
written to /config.json on the SD card when one is present.  The durable
key/value area is not touched.  Returns the new config and the new
content of /config.json. -/
def handle_settings_post (doc : SettingsDoc) (cfg : Config)
    (sd_present : Bool) (sd_config : Option SettingsDoc) :
    Config × Option SettingsDoc :=
  let cfg := match doc.server_url with
    | some u => { cfg with server_url := strncpyM 128 u }
    | none => cfg
  let cfg := match doc.wifi_ssid with
    | some u => { cfg with wifi_ssid := strncpyM 32 u }
    | none => cfg
  let cfg := match doc.wifi_pass with
    | some u => { cfg with wifi_pass := strncpyM 64 u }
    | none => cfg
  (cfg, if sd_present then some doc else sd_config)

/-- load_config (main.cpp lines 1236-1284): when the key/value area holds
a WiFi SSID the function loads from it and returns at once, never reading
/config.json; only with no stored SSID does it fall back to the SD file. -/
def load_config (prefs : Prefs) (sd_present : Bool)
    (sd_config : Option SettingsDoc) (cfg : Config) : Config :=
  if prefs.wifi_ssid ≠ [] then
    let cfg := { cfg with wifi_ssid := strncpyM 32 prefs.wifi_ssid,
                          wifi_pass := strncpyM 64 prefs.wifi_pass }
    let cfg := if prefs.server_url ≠ [] then
        { cfg with server_url := strncpyM 128 prefs.server_url } else cfg
    if prefs.device_name ≠ [] then
      { cfg with device_name := strncpyM 32 prefs.device_name } else cfg
  else
    match sd_present, sd_config with
    | true, some doc =>
      let cfg := match doc.wifi_ssid with
        | some u => { cfg with wifi_ssid := strncpyM 32 u }
        | none => cfg
      let cfg := match doc.wifi_pass with
        | some u => { cfg with wifi_pass := strncpyM 64 u }
        | none => cfg
      let cfg := match doc.server_url with
        | some u => { cfg with server_url := strncpyM 128 u }
        | none => cfg
      match doc.device_name with
        | some u => { cfg with device_name := strncpyM 32 u }
        | none => cfg
    | _, _ => cfg

/-- A settings save followed by a restart: handle_settings updates the
running config and /config.json; the restart resets the config to its
power-on value and runs load_config over the untouched key/value area and
the new /config.json. -/
def settings_roundtrip (prefs : Prefs) (sd_present : Bool)
    (sd_config : Option SettingsDoc) (cfg_running : Config)
    (doc : SettingsDoc) : Config :=
  let r := handle_settings_post doc cfg_running sd_present sd_config
  load_config prefs sd_present r.2 defaultConfig

/-- A concrete status with an active print job, used to exercise the
handlers while phase = Printing. -/
def stPrinting : SysStatus :=
  ⟨SystemState.STATE_PRINTING, "/gcode/a.gcode".toList, 42, [], true, true⟩

/-- A concrete key/value area holding WiFi credentials but no server URL
(the state left by the WiFi setup page, which stores only the two WiFi
keys). -/
def prefs_wifi : Prefs :=
  ⟨"home".toList, "pw".toList, [], []⟩

/-- A concrete settings document carrying only a server URL, as posted by
the Save Settings button of the web page. -/
def doc_url : SettingsDoc :=
  ⟨some ("http://pc:8080".toList), none, none, none⟩

/-!
Helper lemmas about the streaming loop.  None of them is the theorem of a
claim; they are shared by the claim theorems below.
-/

theorem records_sum_len_le (cs : List Char) :
    ((records cs).map List.length).sum ≤ cs.length := by
  induction cs with
  | nil => simp [records]
  | cons c rest ih =>
    by_cases hc : c = '\n'
    · simp [records, hc]
      omega
    · cases hr : records rest with
      | nil => simp [records, hc, hr]
      | cons l ls =>
        rw [hr] at ih
        simp only [List.map_cons, List.sum_cons] at ih
        simp [records, hc, hr]
        omega

theorem trimL_length_le (l : List Char) : (trimL l).length ≤ l.length := by
  unfold trimL
  calc ((l.dropWhile isWS).reverse.dropWhile isWS).reverse.length
      = ((l.dropWhile isWS).reverse.dropWhile isWS).length := List.length_reverse _
    _ ≤ (l.dropWhile isWS).reverse.length := (List.dropWhile_suffix isWS).length_le
    _ = (l.dropWhile isWS).length := List.length_reverse _
    _ ≤ l.length := (List.dropWhile_suffix isWS).length_le

theorem streamRecs_transactions (file_size : Nat) (ls : List (List Char)) :
    ∀ (b : Nat) (p : Int) (rs : List (List Char)),
    (streamRecs file_size b p rs ls).transactions
      = (ls.map trimL).filter (fun t => !skipRec t) := by
  induction ls with
  | nil => intro b p rs; simp [streamRecs]
  | cons l ls ih =>
    intro b p rs
    cases h : skipRec (trimL l) with
    | true => simp [streamRecs, h, List.filter_cons, ih]
    | false => simp [streamRecs, h, List.filter_cons, ih]

theorem streamRecs_errors_len (file_size : Nat) (ls : List (List Char)) :
    ∀ (b : Nat) (p : Int) (rs : List (List Char)),
    (∀ r ∈ rs, hasOk r = false) →
    (streamRecs file_size b p rs ls).errors.length
      = (streamRecs file_size b p rs ls).transactions.length := by
  induction ls with
  | nil => intro b p rs _; simp [streamRecs]
  | cons l ls ih =>
    intro b p rs hrs
    cases h : skipRec (trimL l) with
    | true => simpa [streamRecs, h] using ih b p rs hrs
    | false =>
      have hr : hasOk (rs.head?.getD []) = false := by
        cases rs with
        | nil => rfl
        | cons a t => exact hrs a (by simp)
      have htail : ∀ r ∈ rs.tail, hasOk r = false := by
        intro r hmem
        cases rs with
        | nil => simp at hmem
        | cons a t => exact hrs r (by simp at hmem ⊢; exact Or.inr hmem)
      simpa [streamRecs, h, hr] using
        ih (b + (trimL l).length) (progressCalc (b + (trimL l).length) file_size)
          rs.tail htail

theorem progressCalc_zero (file_size : Nat) : progressCalc 0 file_size = 0 := by
  unfold progressCalc toSigned32
  simp [Int.zero_tdiv]

theorem progressCalc_small (b file_size : Nat) (hb : b * 100 < 2147483648)
    (hs : file_size < 2147483648) :
    progressCalc b file_size = ((b * 100 / file_size : Nat) : Int) := by
  unfold progressCalc toSigned32
  rw [Nat.mod_eq_of_lt (by omega), Nat.mod_eq_of_lt (by omega), if_pos hb, if_pos hs]
  rfl

theorem natdiv_le_100 (b file_size : Nat) (h0 : 0 < file_size) (hb : b ≤ file_size) :
    b * 100 / file_size ≤ 100 := by
  calc b * 100 / file_size ≤ file_size * 100 / file_size :=
        Nat.div_le_div_right (Nat.mul_le_mul_right _ hb)
    _ = 100 := Nat.mul_div_cancel_left 100 h0

theorem chain'_of_chain {α : Type} {R : α → α → Prop} {x : α} {l : List α}
    (h : List.Chain R x l) : List.Chain' R l := by
  cases l with
  | nil => trivial
  | cons a t => exact (List.chain_cons.mp h).2

theorem streamRecs_trace_main (file_size : Nat) (h0 : 0 < file_size)
    (hsz : file_size ≤ 21474836) (ls : List (List Char)) :
    ∀ (b : Nat) (rs : List (List Char)),
    b + (ls.map List.length).sum ≤ file_size →
    (∀ e ∈ (streamRecs file_size b (progressCalc b file_size) rs ls).trace,
        e.1 ≤ file_size ∧ e.2 = ((e.1 * 100 / file_size : Nat) : Int)) ∧
    List.Chain (fun x y : Nat × Int => x.2 ≤ y.2) (b, progressCalc b file_size)
      (streamRecs file_size b (progressCalc b file_size) rs ls).trace := by
  have hsmall : ∀ x : Nat, x ≤ file_size →
      progressCalc x file_size = ((x * 100 / file_size : Nat) : Int) := by
    intro x hx
    apply progressCalc_small
    · have : x * 100 ≤ 21474836 * 100 := Nat.mul_le_mul_right 100 (le_trans hx hsz)
      omega
    · omega
  have hmono : ∀ b1 b2 : Nat, b1 ≤ b2 → b2 ≤ file_size →
      progressCalc b1 file_size ≤ progressCalc b2 file_size := by
    intro b1 b2 h12 h2
    rw [hsmall b1 (le_trans h12 h2), hsmall b2 h2]
    exact_mod_cast Nat.div_le_div_right (Nat.mul_le_mul_right 100 h12)
  induction ls with
  | nil =>
    intro b rs _
    refine ⟨fun e he => ?_, ?_⟩
    · simp [streamRecs] at he
    · simp only [streamRecs]
      exact List.Chain.nil
  | cons l ls ih =>
    intro b rs hb
    simp only [List.map_cons, List.sum_cons] at hb
    have hbsize : b ≤ file_size := by omega
    cases h : skipRec (trimL l) with
    | true =>
      obtain ⟨ihmem, ihchain⟩ := ih b rs (by omega)
      have hunfold : streamRecs file_size b (progressCalc b file_size) rs (l :: ls)
          = ⟨(streamRecs file_size b (progressCalc b file_size) rs ls).transactions,
             (streamRecs file_size b (progressCalc b file_size) rs ls).errors,
             (b, progressCalc b file_size)
               :: (streamRecs file_size b (progressCalc b file_size) rs ls).trace⟩ := by
        simp [streamRecs, h]
      rw [hunfold]
      refine ⟨fun e he => ?_, ?_⟩
      · rcases List.mem_cons.mp he with h1 | h1
        · subst h1
          exact ⟨hbsize, hsmall b hbsize⟩
        · exact ihmem e h1
      · exact List.Chain.cons le_rfl ihchain
    | false =>
      have hlen : (trimL l).length ≤ l.length := trimL_length_le l
      have hb1 : b + (trimL l).length ≤ file_size := by omega
      obtain ⟨ihmem, ihchain⟩ := ih (b + (trimL l).length) rs.tail (by omega)
      have hunfold : streamRecs file_size b (progressCalc b file_size) rs (l :: ls)
          = ⟨trimL l :: (streamRecs file_size (b + (trimL l).length)
                (progressCalc (b + (trimL l).length) file_size) rs.tail ls).transactions,
             (if hasOk (rs.head?.getD [])
              then (streamRecs file_size (b + (trimL l).length)
                (progressCalc (b + (trimL l).length) file_size) rs.tail ls).errors
              else rs.head?.getD [] :: (streamRecs file_size (b + (trimL l).length)
                (progressCalc (b + (trimL l).length) file_size) rs.tail ls).errors),
             (b + (trimL l).length, progressCalc (b + (trimL l).length) file_size)
               :: (streamRecs file_size (b + (trimL l).length)
                (progressCalc (b + (trimL l).length) file_size) rs.tail ls).trace⟩ := by
        simp [streamRecs, h]
      rw [hunfold]
      refine ⟨fun e he => ?_, ?_⟩
      · rcases List.mem_cons.mp he with h1 | h1
        · subst h1
          exact ⟨hb1, hsmall _ hb1⟩
        · exact ihmem e h1
      · exact List.Chain.cons (hmono b (b + (trimL l).length) (by omega) hb1) ihchain

theorem dropWhile_all_neg {p : Char → Bool} (l : List Char)
    (h : ∀ c ∈ l, p c = false) : l.dropWhile p = l := by
  cases l with
  | nil => rfl
  | cons c rest => simp [List.dropWhile_cons, h c (by simp)]

theorem trimL_all_not_ws (l : List Char) (h : ∀ c ∈ l, isWS c = false) :
    trimL l = l := by
  unfold trimL
  rw [dropWhile_all_neg l h,
    dropWhile_all_neg l.reverse (fun c hc => h c (List.mem_reverse.mp hc)),
    List.reverse_reverse]

theorem records_single_line (cs : List Char) (hne : cs ≠ []) (hnl : '\n' ∉ cs) :
    records cs = [cs] := by
  induction cs with
  | nil => cases hne rfl
  | cons c rest ih =>
    have hc : c ≠ '\n' := fun h => hnl (h ▸ List.mem_cons_self c rest)
    by_cases hr : rest = []
    · subst hr; simp [records, hc]
    · have hnl2 : '\n' ∉ rest := fun h => hnl (List.mem_cons_of_mem c h)
      simp [records, hc, ih hr hnl2]

/-- C2: for every instruction file consisting solely of comment lines
(lines starting with the comment marker after trimming) and blank lines,
streaming sends zero link transactions and finishes with phase Idle and
final progress exactly 100. -/
theorem comment_only_stream (filepath content : List Char)
    (responses : List (List Char)) (st : SysStatus)
    (h : ∀ l ∈ records content, skipRec (trimL l) = true) :
    (printer_stream_file true responses filepath content st).2.2.transactions = [] ∧
    (printer_stream_file true responses filepath content st).2.1.state
      = SystemState.STATE_IDLE ∧
    (printer_stream_file true responses filepath content st).2.1.print_progress = 100 := by
  refine ⟨?_, by simp [printer_stream_file], by simp [printer_stream_file]⟩
  have hpsf : (printer_stream_file true responses filepath content st).2.2
      = streamRecs content.length 0 0 responses (records content) := by
    simp [printer_stream_file]
  rw [hpsf, streamRecs_transactions, List.filter_eq_nil_iff]
  intro a ha
  obtain ⟨l0, hl0, rfl⟩ := List.mem_map.mp ha
  simp [h l0 hl0]

/-- C2 witness: a concrete file of comments and blank lines streams with
no transaction and ends Idle at progress 100. -/
theorem comment_only_stream_witness :
    (∀ l ∈ records ("; header\n\n   ; end\n".toList), skipRec (trimL l) = true) ∧
    ((printer_stream_file true [] "/gcode/c.gcode".toList
        "; header\n\n   ; end\n".toList st0).2.2.transactions = [] ∧
     (printer_stream_file true [] "/gcode/c.gcode".toList
        "; header\n\n   ; end\n".toList st0).2.1.state = SystemState.STATE_IDLE ∧
     (printer_stream_file true [] "/gcode/c.gcode".toList
        "; header\n\n   ; end\n".toList st0).2.1.print_progress = 100) :=
  ⟨by decide, comment_only_stream _ _ _ _ (by decide)⟩

/-- C3 (amended): for every non-empty instruction file of at most
21474836 bytes, after each record the progress value equals
floor(100 * bytes_sent / file_size), bytes_sent never exceeds the file
size, progress is non-decreasing and bounded in [0,100] throughout the
stream, and it is exactly 100 at completion.  The size bound keeps the
32-bit product bytes_sent * 100 from wrapping. -/
theorem printer_stream_file_progress (filepath content : List Char)
    (responses : List (List Char)) (st : SysStatus)
    (h1 : content ≠ []) (h2 : content.length ≤ 21474836) :
    (∀ e ∈ (printer_stream_file true responses filepath content st).2.2.trace,
        e.1 ≤ content.length ∧ e.2 = ((e.1 * 100 / content.length : Nat) : Int) ∧
        0 ≤ e.2 ∧ e.2 ≤ 100) ∧
    List.Chain' (fun x y : Nat × Int => x.2 ≤ y.2)
      (printer_stream_file true responses filepath content st).2.2.trace ∧
    (printer_stream_file true responses filepath content st).2.1.print_progress = 100 := by
  have h0 : 0 < content.length := List.length_pos.mpr h1
  have hpsf : (printer_stream_file true responses filepath content st).2.2
      = streamRecs content.length 0 0 responses (records content) := by
    simp [printer_stream_file]
  obtain ⟨hmem, hchain⟩ := streamRecs_trace_main content.length h0 h2 (records content)
    0 responses (by simpa using records_sum_len_le content)
  rw [progressCalc_zero] at hmem hchain
  refine ⟨?_, ?_, by simp [printer_stream_file]⟩
  · intro e he
    rw [hpsf] at he
    obtain ⟨hle, heq⟩ := hmem e he
    have hb := natdiv_le_100 e.1 content.length h0 hle
    refine ⟨hle, heq, by rw [heq]; exact_mod_cast Nat.zero_le _,
      by rw [heq]; exact_mod_cast hb⟩
  · rw [hpsf]
    exact chain'_of_chain hchain

/-- C3 witness: the progress bound and monotonicity theorem applied to a
concrete two-command file. -/
theorem printer_stream_file_progress_witness :
    (("G1 X10\nG1 Y10\n".toList : List Char) ≠ [] ∧
      "G1 X10\nG1 Y10\n".toList.length ≤ 21474836) ∧
    ((∀ e ∈ (printer_stream_file true [] "/gcode/w.gcode".toList
          "G1 X10\nG1 Y10\n".toList st0).2.2.trace,
        e.1 ≤ "G1 X10\nG1 Y10\n".toList.length ∧
        e.2 = ((e.1 * 100 / "G1 X10\nG1 Y10\n".toList.length : Nat) : Int) ∧
        0 ≤ e.2 ∧ e.2 ≤ 100) ∧
     List.Chain' (fun x y : Nat × Int => x.2 ≤ y.2)
       (printer_stream_file true [] "/gcode/w.gcode".toList
          "G1 X10\nG1 Y10\n".toList st0).2.2.trace ∧
     (printer_stream_file true [] "/gcode/w.gcode".toList
        "G1 X10\nG1 Y10\n".toList st0).2.1.print_progress = 100) :=
  ⟨⟨by decide, by decide⟩,
   printer_stream_file_progress _ _ _ _ (by decide) (by decide)⟩

/-- C3 counterexample: on a single-line instruction file of 21474837
bytes the 32-bit product bytes_sent * 100 wraps and the progress value
recorded after the record is -99, outside [0,100], so the claim as stated
(for every non-empty file) is false. -/
theorem printer_stream_file_out (responses : List (List Char))
    (filepath content : List Char) (st : SysStatus) :
    (printer_stream_file true responses filepath content st).2.2
      = streamRecs content.length 0 0 responses (records content) := rfl

theorem streamRecs_single_line (file_size : Nat) (l : List Char)
    (h : skipRec (trimL l) = false) :
    (streamRecs file_size 0 0 [] [l]).trace
      = [((trimL l).length, progressCalc (trimL l).length file_size)] := by
  simp [streamRecs, h]

theorem progress_overflow_cex :
    (printer_stream_file true [] "/gcode/big.gcode".toList
        (List.replicate 21474837 'G') st0).2.2.trace = [(21474837, -99)] ∧
    ¬ ((0 : Int) ≤ -99) := by
  have hne : List.replicate 21474837 'G' ≠ [] := by
    intro h
    have h2 := congrArg List.length h
    rw [List.length_replicate, List.length_nil] at h2
    exact absurd h2 (by decide)
  have hnl : '\n' ∉ List.replicate 21474837 'G' := by
    intro h
    have h2 := List.eq_of_mem_replicate h
    exact absurd h2 (by decide)
  have hrec : records (List.replicate 21474837 'G') = [List.replicate 21474837 'G'] :=
    records_single_line _ hne hnl
  have htrim : trimL (List.replicate 21474837 'G') = List.replicate 21474837 'G' := by
    apply trimL_all_not_ws
    intro c hc
    have h2 := List.eq_of_mem_replicate hc
    subst h2
    decide
  have hskip : skipRec (trimL (List.replicate 21474837 'G')) = false := by
    rw [htrim, show (21474837 : Nat) = 21474836 + 1 from rfl, List.replicate_succ]
    decide
  constructor
  · rw [printer_stream_file_out, hrec, List.length_replicate,
      streamRecs_single_line _ _ hskip,
      htrim, List.length_replicate,
      show progressCalc 21474837 21474837 = -99 from by decide]
  · decide

/-- C4: for every instruction file that opens successfully, streaming
completes with phase Idle and progress 100 regardless of the machine
responses; the transmitted records are exactly the non-skipped records of
the file in file order, and when no response carries the acknowledgment
token every transmitted line produces one logged protocol error. -/
theorem printer_stream_file_tolerant (filepath content : List Char)
    (responses : List (List Char)) (st : SysStatus) :
    (printer_stream_file true responses filepath content st).1 = true ∧
    (printer_stream_file true responses filepath content st).2.1.state
      = SystemState.STATE_IDLE ∧
    (printer_stream_file true responses filepath content st).2.1.print_progress = 100 ∧
    (printer_stream_file true responses filepath content st).2.2.transactions
      = sentRecords content ∧
    ((∀ r ∈ responses, hasOk r = false) →
      (printer_stream_file true responses filepath content st).2.2.errors.length
        = (printer_stream_file true responses filepath content st).2.2.transactions.length) := by
  refine ⟨by simp [printer_stream_file], by simp [printer_stream_file],
    by simp [printer_stream_file], ?_, ?_⟩
  · rw [printer_stream_file_out, streamRecs_transactions]
    rfl
  · intro hresp
    rw [printer_stream_file_out]
    exact streamRecs_errors_len content.length (records content) 0 0 responses hresp

/-- C4 witness: a concrete two-command file streamed against a machine
that never acknowledges still ends Idle at 100 with both lines sent and
both lines logged as errors. -/
theorem printer_stream_file_tolerant_witness :
    (printer_stream_file true ["error\n".toList] "/gcode/t.gcode".toList
        "G1 X10\n; c\nG1 Y10\n".toList st0).1 = true ∧
    (printer_stream_file true ["error\n".toList] "/gcode/t.gcode".toList
        "G1 X10\n; c\nG1 Y10\n".toList st0).2.1.state = SystemState.STATE_IDLE ∧
    (printer_stream_file true ["error\n".toList] "/gcode/t.gcode".toList
        "G1 X10\n; c\nG1 Y10\n".toList st0).2.1.print_progress = 100 ∧
    (printer_stream_file true ["error\n".toList] "/gcode/t.gcode".toList
        "G1 X10\n; c\nG1 Y10\n".toList st0).2.2.transactions
      = sentRecords ("G1 X10\n; c\nG1 Y10\n".toList) ∧
    ((∀ r ∈ (["error\n".toList] : List (List Char)), hasOk r = false) →
      (printer_stream_file true ["error\n".toList] "/gcode/t.gcode".toList
          "G1 X10\n; c\nG1 Y10\n".toList st0).2.2.errors.length
        = (printer_stream_file true ["error\n".toList] "/gcode/t.gcode".toList
            "G1 X10\n; c\nG1 Y10\n".toList st0).2.2.transactions.length) :=
  printer_stream_file_tolerant _ _ _ _

/-- C10: for a zero-byte instruction file that opens successfully the
read loop body never runs, so no per-record progress division is
performed (the trace and the transaction list are empty) and streaming
terminates with phase Idle and progress 100. -/
theorem zero_byte_stream (filepath : List Char) (responses : List (List Char))
    (st : SysStatus) :
    (printer_stream_file true responses filepath [] st).1 = true ∧
    (printer_stream_file true responses filepath [] st).2.1.state
      = SystemState.STATE_IDLE ∧
    (printer_stream_file true responses filepath [] st).2.1.print_progress = 100 ∧
    (printer_stream_file true responses filepath [] st).2.2.trace = [] ∧
    (printer_stream_file true responses filepath [] st).2.2.transactions = [] := by
  refine ⟨by simp [printer_stream_file], by simp [printer_stream_file],
    by simp [printer_stream_file], ?_, ?_⟩
  · rw [printer_stream_file_out]
    rfl
  · rw [printer_stream_file_out]
    rfl

/-- C5: a print request whose target file name does not end in the
instruction-format extension (.gcode or .gco, case-insensitively) is
answered with HTTP 400 and no success, no streaming task is spawned, and
the status is left untouched. -/
theorem handle_print_rejects_non_gcode (file : List Char) (st : SysStatus)
    (h1 : (extOf file).map Char.toLower ≠ ".gcode".toList)
    (h2 : (extOf file).map Char.toLower ≠ ".gco".toList) :
    handle_print (some file) st = ⟨400, false, false, st⟩ := by
  simp only [handle_print]
  rw [if_neg (not_or.mpr ⟨h1, h2⟩)]

/-- C5 witness: a print request for a DXF file is rejected without any
state change. -/
theorem handle_print_rejects_non_gcode_witness :
    ((extOf ("/uploads/part.dxf".toList)).map Char.toLower ≠ ".gcode".toList ∧
     (extOf ("/uploads/part.dxf".toList)).map Char.toLower ≠ ".gco".toList) ∧
    handle_print (some ("/uploads/part.dxf".toList)) st0 = ⟨400, false, false, st0⟩ :=
  ⟨⟨by decide, by decide⟩,
   handle_print_rejects_non_gcode _ st0 (by decide) (by decide)⟩

/-- C1: the claim that a print request arriving while phase = Printing is
rejected as a conflict is false of the code: handle_print never inspects
the current state, answers HTTP 200 with success, and spawns a fresh
streaming task while the active job is printing at 42 percent. -/
theorem print_while_printing_accepted :
    stPrinting.state = SystemState.STATE_PRINTING ∧
    handle_print (some ("/gcode/b.gcode".toList)) stPrinting
      = ⟨200, true, true, stPrinting⟩ := by
  exact ⟨by decide, by decide⟩

/-- C6: when the conversion endpoint answers a non-success status the
remote conversion path returns false, puts the job in the Error phase
with an error message carrying the status code, makes no
Instructions-collection file, and the network request was performed. -/
theorem convert_file_server_non_success (server_url input_path bytes respBody : List Char)
    (httpCode : Nat) (output_creatable : Bool) (st : SysStatus)
    (h1 : server_url ≠ []) (h2 : httpCode ≠ 200) :
    (convert_file_server server_url input_path (some bytes) httpCode respBody
        output_creatable st).ok = false ∧
    (convert_file_server server_url input_path (some bytes) httpCode respBody
        output_creatable st).st.state = SystemState.STATE_ERROR ∧
    (convert_file_server server_url input_path (some bytes) httpCode respBody
        output_creatable st).st.error_message
      = "Server error: ".toList ++ Nat.toDigits 10 httpCode ∧
    (convert_file_server server_url input_path (some bytes) httpCode respBody
        output_creatable st).created = none := by
  simp [convert_file_server, h1, h2]

/-- C6 witness: a 500 answer from the endpoint yields Error phase, the
message Server error: 500 and no output file. -/
theorem convert_file_server_non_success_witness :
    (("http://pc:5000".toList : List Char) ≠ [] ∧ (500 : Nat) ≠ 200) ∧
    ((convert_file_server ("http://pc:5000".toList) "/uploads/a.dwg".toList
        (some ("data".toList)) 500 [] true st0).ok = false ∧
     (convert_file_server ("http://pc:5000".toList) "/uploads/a.dwg".toList
        (some ("data".toList)) 500 [] true st0).st.state = SystemState.STATE_ERROR ∧
     (convert_file_server ("http://pc:5000".toList) "/uploads/a.dwg".toList
        (some ("data".toList)) 500 [] true st0).st.error_message
       = "Server error: ".toList ++ Nat.toDigits 10 500 ∧
     (convert_file_server ("http://pc:5000".toList) "/uploads/a.dwg".toList
        (some ("data".toList)) 500 [] true st0).created = none) :=
  ⟨⟨by decide, by decide⟩,
   convert_file_server_non_success _ _ _ _ _ _ _ (by decide) (by decide)⟩

/-- C7 counterexample: with a conversion endpoint configured, a convert
request for a file already in instruction format does go over the network
(handle_convert dispatches on the configured URL before looking at the
extension), so the claim that the local byte copy happens regardless of
the endpoint configuration is false. -/
theorem convert_gcode_network_cex :
    (extOf ("/uploads/a.gcode".toList)).map Char.toLower = ".gcode".toList ∧
    (handle_convert (some ("/uploads/a.gcode".toList)) "http://pc:5000".toList
        (some ("G1 X0\n".toList)) 200 "OK".toList true st0).network_called = true := by
  exact ⟨by decide, by decide⟩

/-- C7 (amended): when no conversion endpoint is configured, a convert
request for a source file already in instruction format performs a
byte-exact copy of the source into the Instructions collection and
returns success with no network call and no status change; with an
endpoint configured the request is instead sent to the server. -/
theorem handle_convert_local_copy (file bytes respBody : List Char)
    (httpCode : Nat) (st : SysStatus)
    (hext : (extOf file).map Char.toLower = ".gcode".toList ∨
      (extOf file).map Char.toLower = ".gco".toList) :
    handle_convert (some file) [] (some bytes) httpCode respBody true st
      = ⟨200, true, st,
         some (stripExt ("/gcode/".toList ++ afterLastSlash file) ++ ".gcode".toList,
           bytes), false⟩ := by
  simp only [handle_convert, convert_file_local]
  rw [if_neg (by simp), if_pos hext]
  rfl

/-- C7 witness: with no endpoint configured, converting an uppercase .GCO
upload copies its bytes verbatim to /gcode/a.gcode and makes no network
call. -/
theorem handle_convert_local_copy_witness :
    ((extOf ("/uploads/a.GCO".toList)).map Char.toLower = ".gcode".toList ∨
     (extOf ("/uploads/a.GCO".toList)).map Char.toLower = ".gco".toList) ∧
    handle_convert (some ("/uploads/a.GCO".toList)) [] (some ("G1 X0\n".toList))
        0 [] true st0
      = ⟨200, true, st0,
         some (stripExt ("/gcode/".toList ++ afterLastSlash ("/uploads/a.GCO".toList))
           ++ ".gcode".toList, "G1 X0\n".toList), false⟩ :=
  ⟨by decide, handle_convert_local_copy _ _ _ _ _ (by decide)⟩

/-- C8: the claim that a file operation with the storage medium absent
puts the job in the Error phase is false of the upload path: with no SD
card the opened handle is invalid, every chunk is dropped, nothing is
stored, yet the handler sequence ends with phase Idle and
handle_upload_complete answers 200 success. -/
theorem upload_without_sd_reports_success :
    upload_request false ("part.gcode".toList) ["G1 X0\n".toList] st0
      = ({ st0 with state := SystemState.STATE_IDLE,
                    current_file := "part.gcode".toList }, none, 200, true) ∧
    ({ st0 with state := SystemState.STATE_IDLE,
                current_file := "part.gcode".toList } : SysStatus).state
      ≠ SystemState.STATE_ERROR := by
  exact ⟨by decide, by decide⟩

/-- C9: the round-trip claim for the saved server URL is false of the
code when WiFi credentials sit in the durable key/value area: the POST
updates the running config and writes /config.json, but after a restart
load_config returns early on the stored SSID and never reads
/config.json, so the URL is gone. -/
theorem settings_lost_after_restart :
    (handle_settings_post doc_url defaultConfig true none).1.server_url
      = "http://pc:8080".toList ∧
    (handle_settings_post doc_url defaultConfig true none).2 = some doc_url ∧
    prefs_wifi.wifi_ssid ≠ [] ∧
    (settings_roundtrip prefs_wifi true none defaultConfig doc_url).server_url = [] := by
  exact ⟨by decide, by decide, by decide, by decide⟩
